import Mathlib

/-!
Verification development for the glox AST generator script
(scripts/generate_ast.py). The script is embedded shallowly: Python
strings become lists of characters, each write call to the output file
becomes list concatenation, and the unhandled exception the interpreter
can raise while writing is made explicit in the result type.
-/

set_option autoImplicit false
set_option maxRecDepth 100000

namespace GenerateAst

/-- Strings of the embedded program, as lists of characters. -/
abbrev Str := List Char

/-- Whitespace characters stripped by the Python strip and lstrip methods. -/
def isPyWhite (c : Char) : Bool :=
  c = ' ' || c = '\t' || c = '\n' || c = '\r' || c = '\x0b' || c = '\x0c'

/-- Embedding of the Python lstrip method with no argument. -/
def pyLstrip (s : Str) : Str := s.dropWhile isPyWhite

/-- Embedding of the Python strip method with no argument. -/
def pyStrip (s : Str) : Str := ((pyLstrip s).reverse.dropWhile isPyWhite).reverse

/-- Embedding of the Python split method with a one-character separator:
splits at every occurrence of the separator and keeps empty segments, so
the result always has one more segment than there are separators. -/
def pySplit (sep : Char) : Str → List Str
  | [] => [[]]
  | c :: rest =>
    let r := pySplit sep rest
    if c = sep then [] :: r else (c :: r.headI) :: r.tail

/-- The characters strictly before the first occurrence of sep. -/
def takeUntil (sep : Char) : Str → Str
  | [] => []
  | c :: rest => if c = sep then [] else c :: takeUntil sep rest

/-- The characters strictly after the first occurrence of sep;
empty when sep does not occur. -/
def dropThrough (sep : Char) : Str → Str
  | [] => []
  | c :: rest => if c = sep then rest else dropThrough sep rest

/-- The unhandled Python exception the script can raise mid-run. -/
inductive PyExc where
  | indexError : PyExc
deriving DecidableEq

/-- Result of running the emission code: the text written to the output
file before the run ended, and the unhandled exception if one was raised. -/
structure RunOut where
  written : Str
  exc : Option PyExc
deriving DecidableEq

/-- The node-type name the script extracts from a spec string:
typ.split(n a colon)[0].strip(). -/
def parseName (typ : Str) : Str := pyStrip ((pySplit ':' typ).headI)

/-- The field list the script extracts from a spec string:
typ.split(a colon)[1].strip().split(a comma); none when indexing [1]
would raise IndexError. -/
def parseFields (typ : Str) : Option (List Str) :=
  ((pySplit ':' typ)[1]?).map (fun part => pySplit ',' (pyStrip part))

/-- Embedding of write_preamble: the three write calls it performs. -/
def write_preamble : Str :=
  "package main\n".toList
  ++ "\n// -- AUTOGENERATED FILE -- (see scripts/generate_ast.py for details...)\n".toList
  ++ "// This is a simple implementation of the Visitor pattern from OOP\n".toList

/-- Embedding of write_class: the sequence of writes emitting one Go
struct type and its accept method. -/
def write_class (class_name : Str) (field_list : List Str) : Str :=
  ("\n// ".toList ++ class_name ++ " is a simple type of AST node".toList)
  ++ ("\ntype ".toList ++ class_name ++ " struct \x7b".toList)
  ++ (field_list.map (fun field => "\n\t".toList ++ pyLstrip field)).flatten
  ++ "\n\x7d\n".toList
  ++ ("\n// accept method stub for ".toList ++ class_name ++ "\n".toList)
  ++ ("func (c * ".toList ++ class_name ++ ") accept(v Visitor) \x7b\n".toList)
  ++ ("\tv.Visit".toList ++ class_name ++ "(c)\n".toList)
  ++ "\x7d\n".toList

/-- The first loop of define_ast: one Visitor-interface method line per
spec string, in input order. -/
def visitorLoop : List Str → Str
  | [] => []
  | typ :: rest =>
    let class_name := pyStrip ((pySplit ':' typ).headI)
    ("\tVisit".toList ++ class_name ++ "(c *".toList ++ class_name ++ ")\n".toList)
    ++ visitorLoop rest

/-- The second loop of define_ast: one struct-and-accept block per spec
string, in input order; indexing [1] on a spec string with no colon
raises IndexError, ending the run with the text written so far. -/
def classesLoop : List Str → RunOut
  | [] => ⟨[], none⟩
  | typ :: rest =>
    let class_name := pyStrip ((pySplit ':' typ).headI)
    match (pySplit ':' typ)[1]? with
    | none => ⟨[], some PyExc.indexError⟩
    | some part =>
      let field_list := pySplit ',' (pyStrip part)
      let out := classesLoop rest
      ⟨write_class class_name field_list ++ out.written, out.exc⟩

/-- Embedding of define_ast: preamble, Visitor interface, Expr interface,
then the per-type struct blocks, tracking a possible IndexError. -/
def define_ast (typestrings : List Str) : RunOut :=
  let cls := classesLoop typestrings
  ⟨write_preamble
    ++ "type Visitor interface \x7b\n".toList
    ++ visitorLoop typestrings
    ++ "\x7d\n".toList
    ++ "\ntype Expr interface \x7b\n".toList
    ++ "\taccept(Visitor)\n".toList
    ++ "\x7d\n".toList
    ++ cls.written, cls.exc⟩

/-- The fixed spec-string list ts of main. -/
def ts : List Str :=
  ["BinaryExpr   :  left Expr, op Token, right Expr".toList,
   "Grouping     :  exp Expr".toList,
   "Literal      :  val interface\x7b\x7d".toList,
   "Unary        :  op Token, right Expr".toList,
   "Variable     :  name Token".toList]

/-- The fixed output file name of main. -/
def output_file_name : Str := "ast_expr.go".toList

/-- The usage message main prints on a wrong argument count. -/
def usageMsg : Str := "usage: .\\python.exe generate_ast.py [output_directory]".toList

/-- Observable result of one invocation of the script: console lines
printed, the output file written (path and content) if any, and the
process exit status. -/
structure MainResult where
  printed : List Str
  fileOut : Option (Str × Str)
  exitStatus : Nat
deriving DecidableEq

/-- Embedding of main. It is parameterised by the behaviour of
os.path.relpath (relp) and by the directory of the script itself
(current_path), both environment facts the script only passes through.
argv is the full Python sys.argv including the executable path, which
main pops before counting arguments. -/
def main (relp : Str → Str → Str) (current_path : Str) (argv : List Str) : MainResult :=
  let args := argv.drop 1
  if args.length ≠ 1 then
    ⟨[usageMsg], none, 64⟩
  else
    let output_dir := args.headI
    let output_path := relp output_dir current_path ++ "\\".toList ++ output_file_name
    let run := define_ast ts
    ⟨["generating AST struct types...".toList,
      "writing to file at ".toList ++ output_path],
     some (output_path, run.written),
     match run.exc with
     | none => 0
     | some _ => 1⟩

/-- One operation line of the Dispatcher capability contract: the method
named Visit followed by the node-type name, taking a pointer to that
node type. -/
def dispatcherOp (name : Str) : Str :=
  "\tVisit".toList ++ name ++ "(c *".toList ++ name ++ ")\n".toList

/-- The Dispatcher capability contract (the Go Visitor interface) for a
given ordered list of node-type names. -/
def dispatcherContract (names : List Str) : Str :=
  "type Visitor interface \x7b\n".toList
  ++ (names.map dispatcherOp).flatten
  ++ "\x7d\n".toList

/-- The node capability contract (the Go Expr interface) with its single
accept operation. -/
def nodeContract : Str :=
  "\ntype Expr interface \x7b\n".toList
  ++ "\taccept(Visitor)\n".toList
  ++ "\x7d\n".toList

/-- The struct-and-accept block the classes loop emits for one spec
string, stated through the parsed name and fields. -/
def blockOf (typ : Str) : Str :=
  write_class (parseName typ) ((parseFields typ).getD [])

/-- The record-type part of one emitted block: doc comment line and the
struct declaration listing the field declarations in order. -/
def structDecl (class_name : Str) (field_list : List Str) : Str :=
  ("\n// ".toList ++ class_name ++ " is a simple type of AST node".toList)
  ++ ("\ntype ".toList ++ class_name ++ " struct \x7b".toList)
  ++ (field_list.map (fun field => "\n\t".toList ++ pyLstrip field)).flatten
  ++ "\n\x7d\n".toList

/-- The accept-implementation part of one emitted block: its body is the
single statement forwarding to the dispatcher operation named after the
same node type, passing the node itself. -/
def acceptStub (class_name : Str) : Str :=
  ("\n// accept method stub for ".toList ++ class_name ++ "\n".toList)
  ++ ("func (c * ".toList ++ class_name ++ ") accept(v Visitor) \x7b\n".toList)
  ++ ("\tv.Visit".toList ++ class_name ++ "(c)\n".toList)
  ++ "\x7d\n".toList

/-- The fixed two-line generated-file marker comment block appearing in
the emitted preamble. -/
def markerBlock : Str :=
  "// -- AUTOGENERATED FILE -- (see scripts/generate_ast.py for details...)\n".toList
  ++ "// This is a simple implementation of the Visitor pattern from OOP\n".toList

/-- The NodeSpec the grammar parsing inside define_ast derives from one
spec string: the name and, when present, the field list. -/
def parseSpec (typ : Str) : Str × Option (List Str) :=
  (parseName typ, parseFields typ)

/-- The catalog derived from an ordered list of spec strings. -/
def buildCatalog (ls : List Str) : List (Str × Option (List Str)) :=
  ls.map parseSpec

/-- Parse of one spec string following the words of the claim: split on
the FIRST colon only, the trimmed left part is the name, the whole right
part is split on commas and each declaration is trimmed. Stated for
comparison with parseSpec, which follows the source. -/
def parseSpecClaimed (typ : Str) : Str × List Str :=
  (pyStrip (takeUntil ':' typ), (pySplit ',' (dropThrough ':' typ)).map pyStrip)

/-- Number of positions at which pat occurs as a contiguous substring. -/
def countInfix (pat : Str) : Str → Nat
  | [] => 0
  | c :: rest =>
    (if List.isPrefixOf pat (c :: rest) then 1 else 0) + countInfix pat rest

/-- A catalog with the same spec string twice, giving two NodeSpecs with
the same name. -/
def dupInput : List Str := ["A : x T".toList, "A : x T".toList]

/-- Content of the output file on disk. -/
structure FileState where
  content : Str
deriving DecidableEq

/-- Opening the output path in mode w+ truncates whatever content the
file had before. -/
def openWPlus (_prev : FileState) : FileState := ⟨[]⟩

/-- Writing appends to the current file content. -/
def fileWrite (f : FileState) (s : Str) : FileState := ⟨f.content ++ s⟩

/-- One generation run against an output file in a given prior state:
open with truncation, then perform all the writes of define_ast. -/
def runGen (prev : FileState) (ls : List Str) : FileState :=
  fileWrite (openWPlus prev) (define_ast ls).written

/-- A node specification of the minimal generation profile: a name and
the ordered field declarations. -/
structure NodeSpec where
  name : Str
  fields : List Str

/-- Modelled from the spec: the minimal-profile marker type, the shared
empty base type Expr that every record embeds. The minimal generation
profile is not part of the repository snapshot (only the dispatch-mode
script scripts/generate_ast.py is), so it is reconstructed from spec
sections 4.2 and 8. -/
def markerDecl : Str := "\ntype Expr struct \x7b\n\x7d\n".toList

/-- Modelled from the spec: one minimal-profile record type, embedding
the marker and declaring exactly the fields of the NodeSpec in order. -/
def minimalRecord (n : NodeSpec) : Str :=
  "\ntype ".toList ++ n.name ++ " struct \x7b\n\tExpr\n".toList
  ++ (n.fields.map (fun f => "\t".toList ++ f ++ "\n".toList)).flatten
  ++ "\x7d\n".toList

/-- Modelled from the spec: the full minimal-mode output, a generated
preamble comment, the marker type once, then one record per NodeSpec in
catalog order, with no dispatch mechanism. -/
def minimalOutput (catalog : List NodeSpec) : Str :=
  markerBlock ++ markerDecl ++ (catalog.map minimalRecord).flatten

/-- The concrete minimal-mode scenario of spec section 8. -/
def demoCatalog : List NodeSpec :=
  [⟨"BinaryExpr".toList,
    ["left Expr".toList, "op Token".toList, "right Expr".toList]⟩]

/-- The Python split method never returns an empty list of segments. -/
theorem pySplit_ne_nil (sep : Char) (s : Str) : pySplit sep s ≠ [] := by
  cases s with
  | nil => simp [pySplit]
  | cons c rest =>
    simp only [pySplit]
    split <;> simp

/-- The first segment returned by split is the text before the first
occurrence of the separator. -/
theorem headI_pySplit (sep : Char) (s : Str) :
    (pySplit sep s).headI = takeUntil sep s := by
  induction s with
  | nil => rfl
  | cons c rest ih =>
    simp only [pySplit, takeUntil]
    by_cases h : c = sep
    · simp [h]
    · simp [h, ih]

/-- On a string not containing the separator, split returns the whole
string as the single segment. -/
theorem pySplit_of_not_mem {sep : Char} {s : Str} (h : sep ∉ s) :
    pySplit sep s = [s] := by
  induction s with
  | nil => rfl
  | cons c rest ih =>
    simp only [List.mem_cons, not_or] at h
    obtain ⟨h1, h2⟩ := h
    simp only [pySplit]
    rw [if_neg (fun hc => h1 hc.symm), ih h2]
    rfl

/-- On a string containing the separator, split peels off the segment
before the first occurrence and recurses on the text after it. -/
theorem pySplit_of_mem {sep : Char} {s : Str} (h : sep ∈ s) :
    pySplit sep s = takeUntil sep s :: pySplit sep (dropThrough sep s) := by
  induction s with
  | nil => cases h
  | cons c rest ih =>
    by_cases hc : c = sep
    · simp [pySplit, takeUntil, dropThrough, hc]
    · have hr : sep ∈ rest := by
        rcases List.mem_cons.mp h with h1 | h1
        · exact absurd h1.symm hc
        · exact h1
      simp only [pySplit, takeUntil, dropThrough, if_neg hc]
      rw [ih hr]
      rfl

/-- The segment at index 1 of a split, when the separator occurs: the
text between the first and the second occurrence of the separator. -/
theorem getElem?_one_pySplit {sep : Char} {s : Str} (h : sep ∈ s) :
    (pySplit sep s)[1]? = some (takeUntil sep (dropThrough sep s)) := by
  rw [pySplit_of_mem h]
  have hh := headI_pySplit sep (dropThrough sep s)
  cases hl : pySplit sep (dropThrough sep s) with
  | nil => exact absurd hl (pySplit_ne_nil sep _)
  | cons a l =>
    rw [hl] at hh
    simp only [List.headI] at hh
    simp [hh]

/-- The parsed node-type name is the stripped text before the first
colon. -/
theorem parseName_eq (typ : Str) :
    parseName typ = pyStrip (takeUntil ':' typ) := by
  rw [parseName, headI_pySplit]

/-- On a spec string containing a colon, the parsed field list is the
text between the first and second colon, stripped as a whole and split
on commas. -/
theorem parseFields_of_mem {typ : Str} (h : ':' ∈ typ) :
    parseFields typ
      = some (pySplit ',' (pyStrip (takeUntil ':' (dropThrough ':' typ)))) := by
  rw [parseFields, getElem?_one_pySplit h]
  rfl

/-- The Visitor-interface loop writes one dispatcher operation per spec
string, named after its parsed node-type name, in input order. -/
theorem visitorLoop_eq (ls : List Str) :
    visitorLoop ls = (ls.map (fun t => dispatcherOp (parseName t))).flatten := by
  induction ls with
  | nil => rfl
  | cons t r ih =>
    simp only [visitorLoop, List.map_cons, List.flatten_cons, ih]
    rfl

/-- When every spec string contains a colon, the classes loop raises no
exception and writes one block per spec string, in input order. -/
theorem classesLoop_eq (ls : List Str) (h : ∀ t ∈ ls, ':' ∈ t) :
    classesLoop ls = ⟨(ls.map blockOf).flatten, none⟩ := by
  induction ls with
  | nil => rfl
  | cons t r ih =>
    have ht : ':' ∈ t := h t (List.mem_cons_self t r)
    have hr := ih (fun x hx => h x (List.mem_cons_of_mem t hx))
    simp only [classesLoop, getElem?_one_pySplit ht, hr, List.map_cons,
      List.flatten_cons]
    simp [blockOf, parseFields_of_mem ht, parseName_eq, headI_pySplit]

/-- One emitted block is the record-type part followed by the
accept-stub part, both for the same node-type name. -/
theorem write_class_eq (class_name : Str) (field_list : List Str) :
    write_class class_name field_list
      = structDecl class_name field_list ++ acceptStub class_name := by
  simp [write_class, structDecl, acceptStub]

/-- When every spec string contains a colon, define_ast succeeds and its
output decomposes into preamble, dispatcher contract over the parsed
names, node contract, and the per-type blocks in input order. -/
theorem define_ast_decomp (ls : List Str) (h : ∀ t ∈ ls, ':' ∈ t) :
    define_ast ls
      = ⟨write_preamble ++ dispatcherContract (ls.map parseName)
          ++ nodeContract ++ (ls.map blockOf).flatten, none⟩ := by
  simp only [define_ast, classesLoop_eq ls h, dispatcherContract, nodeContract,
    visitorLoop_eq, List.map_map]
  simp [Function.comp_def, List.append_assoc]

/-- The fixed preamble splits into the package clause, a blank line, and
the two-line marker comment block. -/
theorem preamble_eq :
    write_preamble = "package main\n".toList ++ "\n".toList ++ markerBlock := by
  decide

/-- Running define_ast on the fixed spec-string list of main raises no
exception. -/
theorem ts_exc_none : (define_ast ts).exc = none := by
  decide

/-- Claim C1: in dispatch mode, for every catalog the emitted output
contains, first, the Dispatcher capability contract declaring exactly
one operation per NodeSpec, named Visit followed by the node-type name
and taking a reference to that node type, in exactly catalog order with
no omissions or duplicates; then the node capability contract with the
single accept operation; then one record type per NodeSpec. -/
theorem c1_dispatch_contract_order (ls : List Str) (h : ∀ t ∈ ls, ':' ∈ t) :
    (define_ast ls).written
      = write_preamble ++ dispatcherContract (ls.map parseName)
        ++ nodeContract ++ (ls.map blockOf).flatten
    ∧ ∀ i : Nat, ((ls.map parseName).map dispatcherOp)[i]?
        = (ls[i]?).map (fun t => dispatcherOp (parseName t)) := by
  constructor
  · rw [define_ast_decomp ls h]
  · intro i
    simp [List.getElem?_map, List.map_map, Function.comp_def]

/-- Witness for c1_dispatch_contract_order at a concrete one-entry
catalog. -/
theorem c1_witness :
    (∀ t ∈ (["B : x T".toList] : List Str), ':' ∈ t)
    ∧ ((define_ast ["B : x T".toList]).written
        = write_preamble
          ++ dispatcherContract ((["B : x T".toList] : List Str).map parseName)
          ++ nodeContract ++ ((["B : x T".toList] : List Str).map blockOf).flatten
      ∧ ∀ i : Nat,
          (((["B : x T".toList] : List Str).map parseName).map dispatcherOp)[i]?
            = ((["B : x T".toList] : List Str)[i]?).map
                (fun t => dispatcherOp (parseName t))) :=
  ⟨by decide, c1_dispatch_contract_order ["B : x T".toList] (by decide)⟩

/-- Claim C2: for every NodeSpec of the catalog, the emitted record type
declares exactly the parsed fields in order, and the accept
implementation emitted with it forwards to the dispatcher operation
named after the same node-type name, passing the node itself. -/
theorem c2_record_accept_match (ls : List Str) (h : ∀ t ∈ ls, ':' ∈ t)
    (i : Nat) (hi : i < ls.length) :
    ∃ pre post, (define_ast ls).written
      = pre
        ++ structDecl (parseName (ls.getD i []))
            ((parseFields (ls.getD i [])).getD [])
        ++ acceptStub (parseName (ls.getD i []))
        ++ post := by
  refine ⟨write_preamble ++ dispatcherContract (ls.map parseName) ++ nodeContract
      ++ ((ls.take i).map blockOf).flatten,
    ((ls.drop (i + 1)).map blockOf).flatten, ?_⟩
  have hw : (define_ast ls).written
      = write_preamble ++ dispatcherContract (ls.map parseName)
        ++ nodeContract ++ (ls.map blockOf).flatten := by
    rw [define_ast_decomp ls h]
  have hls : ls.map blockOf
      = (ls.take i).map blockOf
        ++ blockOf (ls.getD i []) :: (ls.drop (i + 1)).map blockOf := by
    conv_lhs => rw [← List.take_append_drop i ls]
    rw [List.map_append, List.drop_eq_getElem_cons hi, List.map_cons,
      List.getD_eq_getElem ls [] hi]
  rw [hw, hls]
  simp [blockOf, write_class_eq, List.append_assoc]

/-- Witness for c2_record_accept_match at a concrete one-entry
catalog. -/
theorem c2_witness :
    (∀ t ∈ (["A : x T".toList] : List Str), ':' ∈ t)
    ∧ 0 < (["A : x T".toList] : List Str).length
    ∧ ∃ pre post, (define_ast ["A : x T".toList]).written
        = pre
          ++ structDecl (parseName ((["A : x T".toList] : List Str).getD 0 []))
              ((parseFields ((["A : x T".toList] : List Str).getD 0 [])).getD [])
          ++ acceptStub (parseName ((["A : x T".toList] : List Str).getD 0 []))
          ++ post :=
  ⟨by decide, by decide,
    c2_record_accept_match ["A : x T".toList] (by decide) 0 (by decide)⟩

/-- Claim C3 (code bug): on a catalog with a duplicated node-type name,
define_ast does not fail at all; it writes a complete artifact whose
Visitor interface declares the same dispatch operation twice. -/
theorem c3_duplicate_names_emitted :
    (define_ast dupInput).exc = none
    ∧ (define_ast dupInput).written ≠ []
    ∧ countInfix ("VisitA(c *A)".toList) (define_ast dupInput).written = 2 := by
  decide

/-- Claim C4 (code bug): on a spec string with no colon, define_ast
raises an unhandled IndexError only after the preamble and both
interface sections are already written, leaving a partial artifact; on a
spec string whose field declaration is empty after trimming, it does not
fail at all and emits a record with a blank field line. -/
theorem c4_malformed_partial_write :
    ((define_ast ["A x T".toList]).exc = some PyExc.indexError
      ∧ (define_ast ["A x T".toList]).written ≠ [])
    ∧ ((define_ast ["A :".toList]).exc = none
      ∧ countInfix ("\ntype A struct \x7b\n\t\n\x7d\n".toList)
          (define_ast ["A :".toList]).written = 1) := by
  decide

/-- Claim C5: one generation run determines the final file content from
the spec-string list alone, independently of the prior content of the
output file, so two runs on an identical catalog produce byte-identical
output and re-running is idempotent. -/
theorem c5_deterministic_idempotent (p q : FileState) (ls : List Str) :
    runGen p ls = runGen q ls ∧ runGen (runGen p ls) ls = runGen p ls :=
  ⟨rfl, rfl⟩

/-- Counterexample for claim C6 as stated: the parsed field list differs
from the split-on-first-colon, each-declaration-trimmed reading, both on
a spec string whose field text contains a second colon (the code
truncates at it) and on one with spaces around the comma (the code keeps
the declarations untrimmed). -/
theorem c6_counterexample :
    parseFields ("A:b,c:d".toList) ≠ some (parseSpecClaimed ("A:b,c:d".toList)).2
    ∧ parseFields ("A: b , c".toList)
        ≠ some (parseSpecClaimed ("A: b , c".toList)).2 := by
  decide

/-- Claim C6 as amended: for every spec string containing a colon, the
name is the trimmed text before the first colon; the field list is the
text between the first and second colon (the whole remainder when only
one colon occurs), trimmed as a whole and split on commas with the
individual declarations kept verbatim; and the catalog lists the parses
of the input strings in input order with no sorting or deduplication. -/
theorem c6_parser_amended (typ : Str) (h : ':' ∈ typ) :
    parseName typ = pyStrip (takeUntil ':' typ)
    ∧ parseFields typ
        = some (pySplit ',' (pyStrip (takeUntil ':' (dropThrough ':' typ))))
    ∧ ∀ (ls : List Str) (i : Nat),
        (buildCatalog ls)[i]? = (ls[i]?).map parseSpec :=
  ⟨parseName_eq typ, parseFields_of_mem h,
    fun ls i => by simp [buildCatalog, List.getElem?_map]⟩

/-- Witness for c6_parser_amended at a concrete spec string. -/
theorem c6_witness :
    (':' ∈ ("A : x T".toList : Str))
    ∧ (parseName ("A : x T".toList)
          = pyStrip (takeUntil ':' ("A : x T".toList))
      ∧ parseFields ("A : x T".toList)
          = some (pySplit ','
              (pyStrip (takeUntil ':' (dropThrough ':' ("A : x T".toList)))))
      ∧ ∀ (ls : List Str) (i : Nat),
          (buildCatalog ls)[i]? = (ls[i]?).map parseSpec) :=
  ⟨by decide, c6_parser_amended ("A : x T".toList) (by decide)⟩

/-- Claim C7: in minimal mode, for every catalog the output is the
generated-file comment, the single shared empty marker type emitted
exactly once, then exactly one record per NodeSpec in catalog order; on
the concrete scenario of the spec the marker declaration occurs exactly
once and no dispatch construct (interface or accept) appears. -/
theorem c7_minimal_mode (catalog : List NodeSpec) :
    minimalOutput catalog
      = markerBlock ++ markerDecl ++ (catalog.map minimalRecord).flatten
    ∧ (∀ i : Nat,
        (catalog.map minimalRecord)[i]? = (catalog[i]?).map minimalRecord)
    ∧ countInfix ("type Expr struct".toList) (minimalOutput demoCatalog) = 1
    ∧ countInfix ("interface".toList) (minimalOutput demoCatalog) = 0
    ∧ countInfix ("accept".toList) (minimalOutput demoCatalog) = 0 :=
  ⟨rfl, fun i => by simp [List.getElem?_map], by decide, by decide, by decide⟩

/-- Claim C8: with any argument count other than one the script prints
the usage line and exits with status 64 without touching the output
file; with exactly one argument the run completes with exit status 0. -/
theorem c8_usage_and_exit (relp : Str → Str → Str) (cp : Str) (argv : List Str) :
    ((argv.drop 1).length ≠ 1 → main relp cp argv = ⟨[usageMsg], none, 64⟩)
    ∧ ((argv.drop 1).length = 1 → (main relp cp argv).exitStatus = 0) := by
  constructor
  · intro h
    simp only [main]
    rw [if_pos h]
  · intro h
    have hne : ¬((argv.drop 1).length ≠ 1) := fun hc => hc h
    simp only [main]
    rw [if_neg hne]
    simp [ts_exc_none]

/-- Witness for c8_usage_and_exit on a zero-argument and a one-argument
invocation. -/
theorem c8_witness :
    ((([] : List Str).drop 1).length ≠ 1
      ∧ main (fun d _ => d) [] [] = ⟨[usageMsg], none, 64⟩)
    ∧ (((["gen.py".toList, "out".toList] : List Str).drop 1).length = 1
      ∧ (main (fun d _ => d) [] ["gen.py".toList, "out".toList]).exitStatus = 0) :=
  ⟨⟨by decide, (c8_usage_and_exit (fun d _ => d) [] []).1 (by decide)⟩,
    ⟨by decide,
      (c8_usage_and_exit (fun d _ => d) []
        ["gen.py".toList, "out".toList]).2 (by decide)⟩⟩

/-- Counterexample for claim C9 as stated: the content written by the
generator does not begin with a comment at all, in particular not with
the two-line generated-file marker comment block; its first line is the
package clause. -/
theorem c9_counterexample :
    List.isPrefixOf ("//".toList) (define_ast ts).written = false
    ∧ List.isPrefixOf markerBlock (define_ast ts).written = false := by
  decide

/-- Claim C9 as amended: for every run the content begins with the fixed
package clause line, then a blank line, then the fixed two-line
generated-file marker comment block, followed by the emitted
declarations. -/
theorem c9_preamble_then_marker (ls : List Str) :
    ∃ decls, (define_ast ls).written
      = "package main\n".toList ++ "\n".toList ++ markerBlock ++ decls := by
  refine ⟨"type Visitor interface \x7b\n".toList ++ visitorLoop ls
      ++ "\x7d\n".toList ++ "\ntype Expr interface \x7b\n".toList
      ++ "\taccept(Visitor)\n".toList ++ "\x7d\n".toList
      ++ (classesLoop ls).written, ?_⟩
  simp only [define_ast]
  rw [preamble_eq]
  simp [List.append_assoc]

/-- Claim C10: with exactly one argument the output file path is the
relative path of the destination directory with respect to the script
directory, concatenated with a literal backslash character and the fixed
name ast_expr.go; the file name never depends on the argument and no
platform path-separator join is involved. -/
theorem c10_output_path (relp : Str → Str → Str) (cp dir : Str)
    (argv : List Str) (h : argv.drop 1 = [dir]) :
    (main relp cp argv).fileOut
      = some (relp dir cp ++ "\\".toList ++ output_file_name,
          (define_ast ts).written) := by
  simp [main, h]

/-- Witness for c10_output_path at a concrete invocation. -/
theorem c10_witness :
    ((["gen.py".toList, "out".toList] : List Str).drop 1 = ["out".toList])
    ∧ (main (fun d _ => d) [] ["gen.py".toList, "out".toList]).fileOut
        = some ("out".toList ++ "\\".toList ++ output_file_name,
            (define_ast ts).written) :=
  ⟨by decide, c10_output_path (fun d _ => d) [] ("out".toList)
      ["gen.py".toList, "out".toList] (by decide)⟩

end GenerateAst
